import Mathlib

/-!
Shallow embedding of the analytics-dashboard app (`src/app.py`) and proofs
about its specification.

The app keeps one in-memory table (`df`) with columns
`date`, `sales`, `users`, `conversion`, filters it by an inclusive date
range, and derives metric texts, a rolling-mean trend series and a
descriptive-statistics table from the filtered view.
-/

namespace Dashboard

/-- One row of the dataset.  Dates are modelled as proleptic-Gregorian
ordinal day numbers (as Python's `date.toordinal`); the numeric columns
are modelled as rationals (`sales`, `conversion` are floats in the code,
`users` integer Poisson draws). -/
structure Row where
  date : ℤ
  sales : ℚ
  users : ℕ
  conversion : ℚ
deriving DecidableEq, Repr

/-- The dataset is an ordered sequence of rows. -/
abbrev Dataset := List Row

/-- The value of `input.date_range()`: `fst` is element `[0]`, `snd` is
element `[1]` of the pair. -/
structure DateRange where
  fst : ℤ
  snd : ℤ
deriving DecidableEq, Repr

/-! ## Filter stage (`app.py` lines 74–77)

`filtered_data` builds the boolean mask
`(df['date'] >= input.date_range()[0]) & (df['date'] <= input.date_range()[1])`
and selects `df[date_filter]`, which keeps exactly the rows whose mask
entry is `True`, in order. -/

/-- The elementwise boolean mask
`(df['date'] >= r[0]) & (df['date'] <= r[1])`. -/
def date_mask (df : Dataset) (r : DateRange) : List Bool :=
  df.map (fun row => decide (r.fst ≤ row.date) && decide (row.date ≤ r.snd))

/-- `df[mask]`: boolean-mask row selection, keeping original order. -/
def maskSelect : Dataset → List Bool → Dataset
  | [], _ => []
  | _, [] => []
  | row :: rows, b :: bs =>
      if b then row :: maskSelect rows bs else maskSelect rows bs

/-- The body of the `filtered_data` reactive calc. -/
def filtered_data (df : Dataset) (r : DateRange) : Dataset :=
  maskSelect df (date_mask df r)

/-- A row is in range when `r[0] ≤ date ≤ r[1]`. -/
def inRange (r : DateRange) (row : Row) : Prop :=
  r.fst ≤ row.date ∧ row.date ≤ r.snd

instance (r : DateRange) (row : Row) : Decidable (inRange r row) := by
  unfold inRange; infer_instance

/-- Selecting by the pointwise mask of a predicate is `List.filter`. -/
theorem maskSelect_map_eq_filter (p : Row → Bool) (df : Dataset) :
    maskSelect df (df.map p) = df.filter p := by
  induction df with
  | nil => rfl
  | cons row rows ih =>
      by_cases h : p row <;> simp [maskSelect, List.filter, h, ih]

/-- `filtered_data` is `List.filter` of the in-range predicate. -/
theorem filtered_data_eq_filter (df : Dataset) (r : DateRange) :
    filtered_data df r = df.filter (fun row => decide (inRange r row)) := by
  have h := maskSelect_map_eq_filter
    (fun row => decide (r.fst ≤ row.date) && decide (row.date ≤ r.snd)) df
  unfold filtered_data date_mask
  rw [h]
  congr 1
  funext row
  by_cases h1 : r.fst ≤ row.date <;> by_cases h2 : row.date ≤ r.snd <;>
    simp [inRange, h1, h2]

/-! ## Derived metric texts (`app.py` lines 79–95)

`total_sales` renders `f"${data['sales'].iloc[-1]:,.0f}"`; on an empty
view `iloc[-1]` raises `IndexError`, modelled with `Except`.
`avg_users` renders `f"{data['users'].mean():.0f}"` and `conv_rate`
renders `f"{data['conversion'].mean():.2%}"`; `Series.mean()` of an empty
series is NaN, which the format specs render as `"nan"` / `"nan%"`
without raising, so these two are total functions. -/

/-- Round half to even (the rounding used by Python float formatting),
idealised over exact rationals. -/
def rhe (q : ℚ) : ℤ :=
  let f := ⌊q⌋
  let r := q - f
  if r < 1/2 then f
  else if 1/2 < r then f + 1
  else if Even f then f else f + 1

/-- Insert a thousands separator after every third character of a
reversed digit list. -/
def group3 : List Char → List Char
  | a :: b :: c :: d :: rest => a :: b :: c :: ',' :: group3 (d :: rest)
  | l => l

/-- Decimal digits of a natural number with thousands separators. -/
def fmtGroupedNat (n : ℕ) : String :=
  String.mk ((group3 (Nat.toDigits 10 n).reverse).reverse)

/-- Python `f"{x:,.0f}"`: zero decimal digits, thousands separators. -/
def fmtCommaFixed0 (q : ℚ) : String :=
  let k := rhe q
  (if k < 0 then "-" else "") ++ fmtGroupedNat k.natAbs

/-- Python `f"{x:.0f}"`: zero decimal digits (nonnegative inputs; the
rational model has no negative zero). -/
def fmtFixed0 (q : ℚ) : String :=
  let k := rhe q
  (if k < 0 then "-" else "") ++ toString k.natAbs

/-- Two-digit zero-padded decimal. -/
def pad2 (n : ℕ) : String :=
  if n < 10 then "0" ++ toString n else toString n

/-- Python `f"{x:.2%}"`: multiply by 100, two decimal digits, append
`%`. -/
def fmtPct2 (q : ℚ) : String :=
  let k := rhe (q * 10000)
  (if k < 0 then "-" else "")
    ++ toString (k.natAbs / 100) ++ "." ++ pad2 (k.natAbs % 100) ++ "%"

/-- `Series.mean()`: arithmetic mean, NaN (`none`) on an empty series. -/
def seriesMean (xs : List ℚ) : Option ℚ :=
  if xs.isEmpty then none else some (xs.foldl (· + ·) 0 / xs.length)

/-- `Series.iloc[-1]`: last element, raising `IndexError` when the
series is empty. -/
def ilocLast (xs : List ℚ) : Except String ℚ :=
  match xs.getLast? with
  | none => Except.error "IndexError"
  | some x => Except.ok x

/-- The `total_sales` output: `f"${data['sales'].iloc[-1]:,.0f}"`. -/
def total_sales (v : Dataset) : Except String String := do
  let x ← ilocLast (v.map Row.sales)
  return "$" ++ fmtCommaFixed0 x

/-- The `avg_users` output: `f"{data['users'].mean():.0f}"`. -/
def avg_users (v : Dataset) : String :=
  match seriesMean (v.map (fun row => (row.users : ℚ))) with
  | none => "nan"
  | some m => fmtFixed0 m

/-- The `conv_rate` output: `f"{data['conversion'].mean():.2%}"`. -/
def conv_rate (v : Dataset) : String :=
  match seriesMean (v.map Row.conversion) with
  | none => "nan%"
  | some m => fmtPct2 m

/-! ## Trend stage (`app.py` lines 97–115)

`trend_plot` reads `metric = input.metric()` and `window = input.window()`
and assigns `data['ma'] = data[metric].rolling(window=window).mean()`. -/

/-- The metric selector: one of the keys of the `input_select`. -/
inductive Metric
  | sales
  | users
  | conversion
deriving DecidableEq, Repr

/-- `data[metric]`: the selected column of a row as a rational. -/
def Metric.col : Metric → Row → ℚ
  | .sales => Row.sales
  | .users => fun row => (row.users : ℚ)
  | .conversion => Row.conversion

/-- `Series.rolling(window=w).mean()` with pandas' default
`min_periods = w`: at position `i` the mean of the trailing window of
observations ending at `i`, NaN (`none`) while the window holds fewer
than `w` observations. -/
def rollingMean (xs : List ℚ) (w : ℕ) : List (Option ℚ) :=
  (List.range xs.length).map fun i =>
    if w ≤ i + 1 then
      some (((xs.take (i + 1)).drop (i + 1 - w)).foldl (· + ·) 0 /
        (((xs.take (i + 1)).drop (i + 1 - w)).length : ℚ))
    else none

/-- The `'ma'` series computed by `trend_plot`:
`data[metric].rolling(window=window).mean()`. -/
def trend_ma (v : Dataset) (m : Metric) (w : ℕ) : List (Option ℚ) :=
  rollingMean (v.map m.col) w

/-- A pandas-style frame: the filtered rows together with any extra
columns assigned after construction (`data['ma'] = ...` adds one). -/
structure Frame where
  rows : Dataset
  extraCols : List (String × List (Option ℚ))
deriving DecidableEq, Repr

/-- The frame returned by the `filtered_data` calc: the filtered rows,
no extra columns. -/
def filteredFrame (df : Dataset) (r : DateRange) : Frame :=
  ⟨filtered_data df r, []⟩

/-- Pandas column assignment `frame[name] = col`: overwrite the column
when present, append it otherwise. -/
def setCol (v : Frame) (name : String) (c : List (Option ℚ)) : Frame :=
  if (v.extraCols.map Prod.fst).contains name then
    { v with extraCols :=
        List.map (fun p => if p.1 = name then (name, c) else p) v.extraCols }
  else
    { v with extraCols := v.extraCols ++ [(name, c)] }

/-- `trend_plot`'s effect on the shared filtered frame:
`data['ma'] = data[metric].rolling(window=window).mean()` assigns a
derived column to the view in place. -/
def trend_plot (v : Frame) (m : Metric) (w : ℕ) : Frame :=
  setCol v "ma" (rollingMean (v.rows.map m.col) w)

/-- `rollingMean` preserves the series length. -/
theorem rollingMean_length (xs : List ℚ) (w : ℕ) :
    (rollingMean xs w).length = xs.length := by
  simp [rollingMean]

/-- Pointwise value of `rollingMean` below the length. -/
theorem rollingMean_getD (xs : List ℚ) (w i : ℕ) (hi : i < xs.length) :
    (rollingMean xs w).getD i none =
      if w ≤ i + 1 then
        some (((xs.take (i + 1)).drop (i + 1 - w)).foldl (· + ·) 0 /
          (((xs.take (i + 1)).drop (i + 1 - w)).length : ℚ))
      else none := by
  unfold rollingMean
  rw [List.getD_eq_getElem _ none (by simpa using hi)]
  rw [List.getElem_map, List.getElem_range]

/-- The trailing window rewritten as the `w` values at positions
`i-w+1 … i`, together with its length. -/
theorem window_eq_drop_take (xs : List ℚ) (w i : ℕ) (hw : w ≤ i + 1)
    (hi : i < xs.length) :
    (xs.take (i + 1)).drop (i + 1 - w) = (xs.drop (i + 1 - w)).take w ∧
    ((xs.drop (i + 1 - w)).take w).length = w := by
  constructor
  · rw [List.drop_take]
    congr 1
    omega
  · rw [List.length_take, List.length_drop]
    omega

/-! ## Summary stage (`app.py` lines 117–122)

`summary_table` computes
`data[['sales','users','conversion']].describe().round(2)`.
pandas `describe` reports, for each numeric column: count, mean, sample
standard deviation (`ddof=1`), min, the 25th/50th/75th percentiles with
linear interpolation on the sorted values, and max; every statistic of an
empty column except the count is NaN, and the std of a single value is
NaN (0/0).  `.round(2)` rounds each statistic to 2 decimal digits. -/

/-- numpy/pandas `round(2)` on exact rationals: two decimal digits, half
to even. -/
def round2 (q : ℚ) : ℚ := (rhe (q * 100) : ℚ) / 100

/-- Round half to even on the reals (for the standard deviation, an
irrational square root). -/
noncomputable def rheR (x : ℝ) : ℤ :=
  if x - ⌊x⌋ < 1/2 then ⌊x⌋
  else if 1/2 < x - ⌊x⌋ then ⌊x⌋ + 1
  else if Even ⌊x⌋ then ⌊x⌋ else ⌊x⌋ + 1

/-- `round(2)` on the reals. -/
noncomputable def round2R (x : ℝ) : ℝ := (rheR (x * 100) : ℝ) / 100

/-- Linear interpolation at quantile `p` of an (already sorted) list:
the value at fractional position `(n-1)·p`. -/
def interpAt (s : List ℚ) (p : ℚ) : ℚ :=
  let h : ℚ := ((s.length - 1 : ℕ) : ℚ) * p
  let i : ℕ := (⌊h⌋).toNat
  s.getD i 0 + (h - (i : ℚ)) * (s.getD (i + 1) 0 - s.getD i 0)

/-- `Series.quantile(p)` (numpy linear interpolation): sort the values,
interpolate at position `(n-1)·p`; NaN on an empty series. -/
def percentileQ (xs : List ℚ) (p : ℚ) : Option ℚ :=
  if xs.isEmpty then none
  else some (interpAt (List.insertionSort (· ≤ ·) xs) p)

/-- `Series.std()` squared: the sample variance with `n-1` denominator,
NaN (`none`) when fewer than two observations exist. -/
def sampleVar (xs : List ℚ) : Option ℚ :=
  if xs.length ≤ 1 then none
  else
    let m := xs.foldl (· + ·) 0 / (xs.length : ℚ)
    some ((xs.foldl (fun acc x => acc + (x - m) ^ 2) 0) /
      ((xs.length - 1 : ℕ) : ℚ))

/-- One column of the `describe()` output (after `.round(2)`). -/
structure ColStats where
  count : ℚ
  mean : Option ℚ
  std : Option ℝ
  min : Option ℚ
  q25 : Option ℚ
  q50 : Option ℚ
  q75 : Option ℚ
  max : Option ℚ

/-- `describe()` of one numeric column followed by `.round(2)`. -/
noncomputable def describeCol (xs : List ℚ) : ColStats where
  count := (xs.length : ℚ)
  mean := (seriesMean xs).map round2
  std := Option.map (fun v2 : ℚ => round2R (Real.sqrt (v2 : ℝ))) (sampleVar xs)
  min := xs.min?.map round2
  q25 := (percentileQ xs (1/4)).map round2
  q50 := (percentileQ xs (1/2)).map round2
  q75 := (percentileQ xs (3/4)).map round2
  max := xs.max?.map round2

/-- The `summary_table` output:
`data[['sales','users','conversion']].describe().round(2)`, one
statistics column per selected metric column. -/
noncomputable def summary_table (v : Dataset) : Metric → ColStats :=
  fun m => describeCol (v.map m.col)

/-- A fold of accumulated `f`-values is the sum of the mapped list. -/
theorem foldl_add_eq_sum (f : ℚ → ℚ) (xs : List ℚ) :
    xs.foldl (fun acc x => acc + f x) 0 = (xs.map f).sum := by
  rw [List.sum_eq_foldl, List.foldl_map]

/-! ## Dataset generator (`app.py` lines 7–18)

`create_sample_data` seeds numpy's PRNG (`np.random.seed(123)`), builds
100 consecutive daily dates from 2023-01-01
(`pd.date_range('2023-01-01', periods=100, freq='D')`) and the columns
`sales = np.random.normal(1000, 200, 100).cumsum()`,
`users = np.random.poisson(500, 100)` and
`conversion = np.random.uniform(0.01, 0.05, 100)`.  The PRNG itself is
floating-point library code outside the repository; it is modelled as
abstract sample streams that are a pure function of the seed, with
numpy's documented contracts: a draw of size `n` yields `n` samples, and
`uniform(low, high)` samples lie in the half-open interval
`[low, high)`. -/

/-- The sample streams a seeded numpy PRNG provides; a draw of size `n`
consumes the stream's next `n` values. -/
structure SampleStreams where
  normal : ℕ → List ℚ
  poisson : ℕ → List ℕ
  uniform : ℕ → List ℚ

/-- numpy's documented contracts for the three draws used by the
generator. -/
def SampleStreams.Wf (g : SampleStreams) : Prop :=
  (∀ n, (g.normal n).length = n) ∧
  (∀ n, (g.poisson n).length = n) ∧
  (∀ n, (g.uniform n).length = n) ∧
  (∀ n, ∀ x ∈ g.uniform n, 1/100 ≤ x ∧ x < 1/20)

/-- `ndarray.cumsum` helper carrying the running total. -/
def cumsumAux (acc : ℚ) : List ℚ → List ℚ
  | [] => []
  | x :: rest => (acc + x) :: cumsumAux (acc + x) rest

/-- `ndarray.cumsum`: the running sums of a sample vector. -/
def cumsum (xs : List ℚ) : List ℚ := cumsumAux 0 xs

/-- 2023-01-01 as a proleptic-Gregorian ordinal
(`date(2023, 1, 1).toordinal()`). -/
def day20230101 : ℤ := 738521

/-- `pd.date_range(start, periods=n, freq='D')`: `n` consecutive daily
ordinals from `start`. -/
def date_range (start : ℤ) (periods : ℕ) : List ℤ :=
  (List.range periods).map (fun i : ℕ => start + (i : ℤ))

/-- `pd.DataFrame({...})`: align the four equal-length columns into
rows. -/
def zipRows : List ℤ → List ℚ → List ℕ → List ℚ → List Row
  | d :: ds, s :: ss, u :: us, c :: cs => ⟨d, s, u, c⟩ :: zipRows ds ss us cs
  | _, _, _, _ => []

/-- The body of `create_sample_data` for given sample streams. -/
def create_sample_data (g : SampleStreams) : Dataset :=
  zipRows (date_range day20230101 100) (cumsum (g.normal 100))
    (g.poisson 100) (g.uniform 100)

/-- Column projections of the aligned frame recover the columns. -/
theorem zipRows_proj (ds : List ℤ) (ss : List ℚ) (us : List ℕ)
    (cs : List ℚ) (h1 : ss.length = ds.length) (h2 : us.length = ds.length)
    (h3 : cs.length = ds.length) :
    (zipRows ds ss us cs).map Row.date = ds ∧
    (zipRows ds ss us cs).map Row.sales = ss ∧
    (zipRows ds ss us cs).map Row.users = us ∧
    (zipRows ds ss us cs).map Row.conversion = cs := by
  induction ds generalizing ss us cs with
  | nil =>
      cases ss with
      | nil =>
          cases us with
          | nil =>
              cases cs with
              | nil => exact ⟨rfl, rfl, rfl, rfl⟩
              | cons c cs => simp at h3
          | cons u us => simp at h2
      | cons x ss => simp at h1
  | cons d ds ih =>
      cases ss with
      | nil => simp at h1
      | cons x ss =>
          cases us with
          | nil => simp at h2
          | cons u us =>
              cases cs with
              | nil => simp at h3
              | cons c cs =>
                  obtain ⟨p1, p2, p3, p4⟩ := ih ss us cs
                    (by simpa using h1) (by simpa using h2) (by simpa using h3)
                  exact ⟨by simp [zipRows, p1], by simp [zipRows, p2],
                    by simp [zipRows, p3], by simp [zipRows, p4]⟩

/-- `cumsumAux` keeps the length. -/
theorem cumsumAux_length (acc : ℚ) (xs : List ℚ) :
    (cumsumAux acc xs).length = xs.length := by
  induction xs generalizing acc with
  | nil => rfl
  | cons x rest ih => simp [cumsumAux, ih]

/-- Position `i` of `cumsumAux acc xs` is `acc` plus the sum of the
first `i+1` values. -/
theorem cumsumAux_getD (acc : ℚ) (xs : List ℚ) (i : ℕ)
    (hi : i < xs.length) :
    (cumsumAux acc xs).getD i 0 = acc + (xs.take (i + 1)).sum := by
  induction xs generalizing acc i with
  | nil => simp at hi
  | cons x rest ih =>
      cases i with
      | zero => simp [cumsumAux]
      | succ j =>
          have hj : j < rest.length := by simpa using hi
          simp only [cumsumAux, List.getD_cons_succ, List.take_succ_cons,
            List.sum_cons]
          rw [ih (acc + x) j hj]
          ring

/-- The cumulative-sum column: position `i` is the sum of the first
`i+1` samples. -/
theorem cumsum_getD (xs : List ℚ) (i : ℕ) (hi : i < xs.length) :
    (cumsum xs).getD i 0 = (xs.take (i + 1)).sum := by
  rw [cumsum, cumsumAux_getD 0 xs i hi, zero_add]

/-! ## Server setup (`app.py` lines 1–4 and 71–77)

`app.py` imports only `App`, `render`, `ui` from shiny (line 1), the
aliases `pd`, `plt`, `np` (lines 2–4), and binds `create_sample_data`,
`df`, `app_ui`, `server` and `app` at module level.  The body of
`server` begins with the decorator `@reactive.Calc` (line 74); when the
Shiny runtime calls `server` for a session, Python resolves the free
name `reactive` against the function's locals, the module globals and
the builtins, and raises `NameError` when all three miss. -/

/-- The names bound at module level in `app.py`. -/
def moduleNames : List String :=
  ["App", "render", "ui", "pd", "plt", "np",
   "create_sample_data", "df", "app_ui", "server", "app"]

/-- The local names bound when `server(input, output, session)` starts
executing: its three parameters. -/
def serverParams : List String := ["input", "output", "session"]

/-- Python name resolution: locals, then module globals, then builtins;
an unbound name raises `NameError`. -/
def lookupName (locs globs builtins : List String) (n : String) :
    Except String Unit :=
  if n ∈ locs ∨ n ∈ globs ∨ n ∈ builtins then Except.ok ()
  else Except.error ("NameError: name " ++ n ++ " is not defined")

/-- Executing the statements of `server`'s body in order, up to the
name lookups of the decorator expressions: the first statement evaluates
`reactive.Calc`, and only afterwards would the later decorators resolve
`output` and `render`. -/
def serverSetup (builtins : List String) : Except String Unit := do
  let _ ← lookupName serverParams moduleNames builtins "reactive"
  let _ ← lookupName serverParams moduleNames builtins "output"
  let _ ← lookupName serverParams moduleNames builtins "render"
  Except.ok ()

/-- Rows sorted ascending by date (the dataset invariant). -/
def dateSorted (df : Dataset) : Prop :=
  df.Pairwise (fun a b => a.date ≤ b.date)

instance (df : Dataset) : Decidable (dateSorted df) := by
  unfold dateSorted; infer_instance

/-- A small concrete dataset used to instantiate universally quantified
theorems (dates 10, 11, 13 with arbitrary numeric columns). -/
def exDf : Dataset :=
  [⟨10, 5, 2, 1/50⟩, ⟨11, 7, 3, 1/25⟩, ⟨13, 4, 1, 3/100⟩]

/-- A range covering the middle of `exDf`. -/
def exRange : DateRange := ⟨11, 12⟩

/-- A range entirely before `exDf`'s span. -/
def exEarlyRange : DateRange := ⟨1, 2⟩

/-- Concrete constant sample streams used to instantiate the generator
contract (each draw of size `n` yields `n` copies of a fixed value; the
uniform value `1/50` lies in `[1/100, 1/20)`). -/
def exStreams : SampleStreams :=
  ⟨fun n => List.replicate n 1000,
   fun n => List.replicate n 500,
   fun n => List.replicate n (1/50)⟩

end Dashboard

namespace Dashboard

/-- C1: for every dataset and date range, `filtered_data` returns exactly
the rows whose date lies in the inclusive interval — it is an
order-preserving subsequence of the dataset, every returned row is in
range, every in-range row is returned, the returned count equals the
number of in-range dataset rows, ascending-date order is preserved, and a
range containing no dataset date yields an empty view. -/
theorem filter_stage_correct (df : Dataset) (r : DateRange) :
    (filtered_data df r).Sublist df ∧
    (∀ row ∈ filtered_data df r, inRange r row) ∧
    (∀ row ∈ df, inRange r row → row ∈ filtered_data df r) ∧
    (filtered_data df r).length = df.countP (fun row => decide (inRange r row)) ∧
    (dateSorted df → dateSorted (filtered_data df r)) ∧
    ((∀ row ∈ df, row.date < r.fst ∨ r.snd < row.date) →
      filtered_data df r = []) := by
  rw [filtered_data_eq_filter]
  refine ⟨List.filter_sublist df, ?_, ?_, ?_, ?_, ?_⟩
  · intro row hrow
    exact of_decide_eq_true (List.mem_filter.mp hrow).2
  · intro row hrow hr
    exact List.mem_filter.mpr ⟨hrow, decide_eq_true hr⟩
  · rw [List.countP_eq_length_filter]
  · intro hs
    exact List.Pairwise.sublist (List.filter_sublist df) hs
  · intro hout
    rw [List.filter_eq_nil_iff]
    intro row hrow
    rcases hout row hrow with h | h <;>
      simp [inRange, not_and_or, not_le, h]

/-- Witness for C1 at the concrete dataset `exDf`: the count equality for
a mid-span range, sortedness preservation, and the empty view for a range
before the dataset's span. -/
theorem filter_stage_correct_witness :
    (filtered_data exDf exRange).length
        = exDf.countP (fun row => decide (inRange exRange row)) ∧
    dateSorted (filtered_data exDf exRange) ∧
    filtered_data exDf exEarlyRange = [] :=
  ⟨(filter_stage_correct exDf exRange).2.2.2.1,
   (filter_stage_correct exDf exRange).2.2.2.2.1 (by decide),
   (filter_stage_correct exDf exEarlyRange).2.2.2.2.2 (by decide)⟩

/-- C7: the filter is idempotent — filtering an already-filtered view by
the same range returns exactly the same rows. -/
theorem filter_idempotent (df : Dataset) (r : DateRange) :
    filtered_data (filtered_data df r) r = filtered_data df r := by
  rw [filtered_data_eq_filter df r, filtered_data_eq_filter,
    List.filter_filter]
  congr 1
  funext row
  exact Bool.and_self _

/-- C2 (code bug): on the empty filtered view produced by a range before
the dataset's span, `avg_users` and `conv_rate` degrade gracefully to the
NaN renderings `"nan"` / `"nan%"`, but `total_sales` raises `IndexError`
(`data['sales'].iloc[-1]` on an empty series) instead of degrading. -/
theorem empty_view_metrics :
    filtered_data exDf exEarlyRange = [] ∧
    total_sales ([] : Dataset) = Except.error "IndexError" ∧
    avg_users ([] : Dataset) = "nan" ∧
    conv_rate ([] : Dataset) = "nan%" :=
  ⟨rfl, rfl, rfl, rfl⟩

/-- C9: on every non-empty view, `total_sales` is the last row's sales
value formatted as currency (thousands separators, zero decimals),
`avg_users` is the mean of the users column formatted as an integer, and
`conv_rate` is the mean of the conversion column formatted as a
percentage with two decimal digits. -/
theorem metric_texts_nonempty (v : Dataset) (row : Row)
    (h : v.getLast? = some row) :
    total_sales v = Except.ok ("$" ++ fmtCommaFixed0 row.sales) ∧
    avg_users v = fmtFixed0 ((v.map (fun r => (r.users : ℚ))).sum / v.length) ∧
    conv_rate v = fmtPct2 ((v.map Row.conversion).sum / v.length) := by
  have hne : v ≠ [] := by
    intro he; subst he; simp at h
  refine ⟨?_, ?_, ?_⟩
  · unfold total_sales ilocLast
    rw [List.getLast?_map, h]
    rfl
  · unfold avg_users seriesMean
    simp [hne, List.sum_eq_foldl]
  · unfold conv_rate seriesMean
    simp [hne, List.sum_eq_foldl]

/-- Witness for C9 at the concrete dataset `exDf`, whose last row is
`⟨13, 4, 1, 3/100⟩`. -/
theorem metric_texts_nonempty_witness :
    exDf.getLast? = some ⟨13, 4, 1, 3/100⟩ ∧
    total_sales exDf = Except.ok ("$" ++ fmtCommaFixed0 (4 : ℚ)) ∧
    avg_users exDf = fmtFixed0 ((exDf.map (fun r => (r.users : ℚ))).sum / exDf.length) ∧
    conv_rate exDf = fmtPct2 ((exDf.map Row.conversion).sum / exDf.length) :=
  ⟨rfl,
   (metric_texts_nonempty exDf ⟨13, 4, 1, 3/100⟩ rfl).1,
   (metric_texts_nonempty exDf ⟨13, 4, 1, 3/100⟩ rfl).2.1,
   (metric_texts_nonempty exDf ⟨13, 4, 1, 3/100⟩ rfl).2.2⟩

/-- C3: for every filtered view, metric selection and window `w ∈ [1,30]`,
the moving-average series has the view's length, position `i` is defined
iff `i ≥ w - 1`, a defined position is the arithmetic mean of the `w`
metric values at positions `i-w+1 … i` (no partial windows), and when `w`
exceeds the view's length every position is undefined. -/
theorem moving_average_window (v : Dataset) (m : Metric) (w : ℕ)
    (hw1 : 1 ≤ w) (hw30 : w ≤ 30) :
    (trend_ma v m w).length = v.length ∧
    (∀ i, i < v.length →
      ((trend_ma v m w).getD i none ≠ none ↔ w - 1 ≤ i)) ∧
    (∀ i, i < v.length → w - 1 ≤ i →
      (((v.map m.col).drop (i + 1 - w)).take w).length = w ∧
      (trend_ma v m w).getD i none
        = some ((((v.map m.col).drop (i + 1 - w)).take w).sum / (w : ℚ))) ∧
    (v.length < w → ∀ y ∈ trend_ma v m w, y = none) := by
  have hxs : (v.map m.col).length = v.length := List.length_map v m.col
  refine ⟨?_, ?_, ?_, ?_⟩
  · rw [trend_ma, rollingMean_length, hxs]
  · intro i hi
    rw [trend_ma, rollingMean_getD (v.map m.col) w i (by omega)]
    by_cases h : w ≤ i + 1
    · rw [if_pos h]
      simp only [ne_eq, Option.some_ne_none, not_false_eq_true, true_iff]
      omega
    · rw [if_neg h]
      simp only [ne_eq, not_true_eq_false, false_iff, not_le]
      omega
  · intro i hi hwi
    have h : w ≤ i + 1 := by omega
    obtain ⟨hwin, hlen⟩ := window_eq_drop_take (v.map m.col) w i h (by omega)
    refine ⟨hlen, ?_⟩
    rw [trend_ma, rollingMean_getD (v.map m.col) w i (by omega), if_pos h,
      hwin, hlen, ← List.sum_eq_foldl]
  · intro hlt y hy
    rw [trend_ma, rollingMean] at hy
    obtain ⟨i, hi, hyi⟩ := List.mem_map.mp hy
    have hi' : i < v.length := by
      have := List.mem_range.mp hi
      omega
    rw [if_neg (by omega)] at hyi
    exact hyi.symm

/-- Witness for C3 at `exDf` (3 rows) with the users metric: window 2 at
position 1 is defined and equals the mean of positions 0–1, and the
definedness criterion also holds at position 0 (where both sides of the
iff are false). -/
theorem moving_average_window_witness :
    ((trend_ma exDf Metric.users 2).getD 1 none ≠ none ↔ 2 - 1 ≤ 1) ∧
    (trend_ma exDf Metric.users 2).getD 1 none
      = some ((((exDf.map Metric.users.col).drop 0).take 2).sum / (2 : ℚ)) ∧
    ((trend_ma exDf Metric.users 2).getD 0 none ≠ none ↔ 2 - 1 ≤ 0) :=
  ⟨(moving_average_window exDf Metric.users 2 (by decide) (by decide)).2.1
      1 (by decide),
   ((moving_average_window exDf Metric.users 2 (by decide) (by decide)).2.2.1
      1 (by decide) (by decide)).2,
   (moving_average_window exDf Metric.users 2 (by decide) (by decide)).2.1
      0 (by decide)⟩

/-- C6: the moving average with window size 1 is the raw metric column
of the view, position for position. -/
theorem moving_average_window_one (v : Dataset) (m : Metric) :
    trend_ma v m 1 = (v.map m.col).map some := by
  have hlen : (trend_ma v m 1).length = ((v.map m.col).map some).length := by
    simp [trend_ma, rollingMean_length]
  apply List.ext_getElem hlen
  intro i h1 h2
  have hx : i < (v.map m.col).length := by simpa using h2
  have hg := rollingMean_getD (v.map m.col) 1 i hx
  obtain ⟨hwin, hlen1⟩ := window_eq_drop_take (v.map m.col) 1 i (by omega) hx
  rw [List.getD_eq_getElem _ none (by simpa [trend_ma] using h1)] at hg
  rw [show (trend_ma v m 1)[i] = (rollingMean (v.map m.col) 1)[i] from rfl, hg,
    if_pos (by omega), hwin, hlen1]
  simp only [Nat.add_sub_cancel]
  rw [List.drop_eq_getElem_cons hx]
  simp

/-- C4 counterexample: `trend_plot` does not leave the filtered view
unchanged — assigning the `'ma'` column mutates the shared frame in
place, so the frame after `trend_plot` differs from the frame
`filtered_data` constructed. -/
theorem view_mutated_counterexample :
    trend_plot (filteredFrame exDf exRange) Metric.users 7
      ≠ filteredFrame exDf exRange := by
  intro h
  have h2 := congrArg (fun fr => fr.extraCols.length) h
  simp [trend_plot, setCol, filteredFrame] at h2

/-- C4 amended: `trend_plot` mutates the filtered view in place by
assigning the derived `'ma'` column; the original rows are left
unchanged, the mutation adds exactly the `'ma'` moving-average column,
and the mutated frame always differs from the freshly constructed
filtered frame. -/
theorem view_mutation_characterised (df : Dataset) (r : DateRange)
    (m : Metric) (w : ℕ) :
    (trend_plot (filteredFrame df r) m w).rows = filtered_data df r ∧
    (trend_plot (filteredFrame df r) m w).extraCols
      = [("ma", trend_ma (filtered_data df r) m w)] ∧
    trend_plot (filteredFrame df r) m w ≠ filteredFrame df r := by
  refine ⟨rfl, rfl, ?_⟩
  intro h
  have h2 := congrArg (fun fr => fr.extraCols.length) h
  simp [trend_plot, setCol, filteredFrame] at h2

/-- C5: for every filtered view, `summary_table` reports per column the
row count; on an empty view count 0 with every other statistic undefined;
on a non-empty view the mean (rounded to 2 digits), the minimum, the
maximum, and the three quartiles by linear interpolation on the sorted
values; and the sample standard deviation (`n-1` denominator) rounded to
2 digits, undefined when fewer than two rows exist. -/
theorem summary_stage_correct (v : Dataset) :
    (∀ m : Metric, (summary_table v m).count = (v.length : ℚ)) ∧
    (v = [] → ∀ m : Metric,
      (summary_table v m).count = 0 ∧
      (summary_table v m).mean = none ∧
      (summary_table v m).std = none ∧
      (summary_table v m).min = none ∧
      (summary_table v m).q25 = none ∧
      (summary_table v m).q50 = none ∧
      (summary_table v m).q75 = none ∧
      (summary_table v m).max = none) ∧
    (v ≠ [] → ∀ m : Metric,
      (summary_table v m).mean
        = some (round2 ((v.map m.col).sum / (v.length : ℚ))) ∧
      (∃ x, x ∈ v.map m.col ∧ (∀ y ∈ v.map m.col, x ≤ y) ∧
        (summary_table v m).min = some (round2 x)) ∧
      (∃ x, x ∈ v.map m.col ∧ (∀ y ∈ v.map m.col, y ≤ x) ∧
        (summary_table v m).max = some (round2 x)) ∧
      (∀ s : List ℚ, s.Perm (v.map m.col) → s.Sorted (· ≤ ·) →
        (summary_table v m).q25 = some (round2 (interpAt s (1/4))) ∧
        (summary_table v m).q50 = some (round2 (interpAt s (1/2))) ∧
        (summary_table v m).q75 = some (round2 (interpAt s (3/4))))) ∧
    (v.length ≤ 1 → ∀ m : Metric, (summary_table v m).std = none) ∧
    (2 ≤ v.length → ∀ m : Metric,
      (summary_table v m).std = some (round2R (Real.sqrt
        ((((v.map m.col).map
            (fun x => (x - (v.map m.col).sum / (v.length : ℚ)) ^ 2)).sum
          / ((v.length - 1 : ℕ) : ℚ) : ℚ) : ℝ)))) := by
  haveI : Std.Antisymm (fun x1 x2 : ℚ => x1 ≤ x2) :=
    ⟨fun h h' => le_antisymm h h'⟩
  refine ⟨?_, ?_, ?_, ?_, ?_⟩
  · intro m
    simp [summary_table, describeCol]
  · rintro rfl m
    refine ⟨?_, rfl, rfl, rfl, rfl, rfl, rfl, rfl⟩
    simp [summary_table, describeCol]
  · intro hne m
    have hxs : v.map m.col ≠ [] := by
      simpa [List.map_eq_nil_iff] using hne
    have hie : (v.map m.col).isEmpty = false := by
      simpa [List.isEmpty_iff] using hxs
    refine ⟨?_, ?_, ?_, ?_⟩
    · simp [summary_table, describeCol, seriesMean, hie, List.sum_eq_foldl]
    · obtain ⟨x, hx⟩ : ∃ x, (v.map m.col).min? = some x := by
        cases hm : (v.map m.col).min? with
        | none => exact absurd (List.min?_eq_none_iff.mp hm) hxs
        | some x => exact ⟨x, rfl⟩
      have hprops := (List.min?_eq_some_iff (fun _ => le_refl _)
        (fun _ _ => min_choice _ _) (fun _ _ _ => le_min_iff)).mp hx
      exact ⟨x, hprops.1, hprops.2, by simp [summary_table, describeCol, hx]⟩
    · obtain ⟨x, hx⟩ : ∃ x, (v.map m.col).max? = some x := by
        cases hm : (v.map m.col).max? with
        | none => exact absurd (List.max?_eq_none_iff.mp hm) hxs
        | some x => exact ⟨x, rfl⟩
      have hprops := (List.max?_eq_some_iff (fun _ => le_refl _)
        (fun _ _ => max_choice _ _) (fun _ _ _ => max_le_iff)).mp hx
      exact ⟨x, hprops.1, hprops.2, by simp [summary_table, describeCol, hx]⟩
    · intro s hperm hsort
      have hs : s = List.insertionSort (· ≤ ·) (v.map m.col) :=
        List.eq_of_perm_of_sorted
          (hperm.trans (List.perm_insertionSort _ _).symm) hsort
          (List.sorted_insertionSort _ _)
      refine ⟨?_, ?_, ?_⟩ <;>
        simp [summary_table, describeCol, percentileQ, hie, hs]
  · intro h1 m
    simp [summary_table, describeCol, sampleVar, h1]
  · intro h2 m
    have hlen : (v.map m.col).length = v.length := List.length_map _ _
    have hne1 : ¬ ((v.map m.col).length ≤ 1) := by omega
    have key :
        ((v.map m.col).foldl
            (fun acc x => acc +
              (x - (v.map m.col).foldl (· + ·) 0 /
                ((v.map m.col).length : ℚ)) ^ 2) 0) /
          (((v.map m.col).length - 1 : ℕ) : ℚ)
        = (((v.map m.col).map
            (fun x => (x - (v.map m.col).sum / (v.length : ℚ)) ^ 2)).sum
          / ((v.length - 1 : ℕ) : ℚ) : ℚ) := by
      rw [foldl_add_eq_sum, ← List.sum_eq_foldl, hlen]
    simp only [summary_table, describeCol, sampleVar, if_neg hne1]
    rw [key]
    rfl

/-- C8: for well-formed seeded sample streams, the generator produces
exactly 100 rows; the date column is 100 consecutive daily ordinals from
2023-01-01 (hence strictly ascending); the sales column is the
cumulative sum of the drawn normal sample sequence; the users and
conversion columns are the drawn Poisson and uniform samples, the latter
within numpy's `[0.01, 0.05)` contract; and the result is a
deterministic function of the streams (equal streams give identical
datasets). -/
theorem generator_contract (g : SampleStreams) (hg : g.Wf) :
    (create_sample_data g).length = 100 ∧
    (create_sample_data g).map Row.date = date_range day20230101 100 ∧
    (∀ i, i < 100 →
      ((create_sample_data g).map Row.date).getD i 0 = day20230101 + i) ∧
    (create_sample_data g).Pairwise (fun a b => a.date < b.date) ∧
    (create_sample_data g).map Row.sales = cumsum (g.normal 100) ∧
    (∀ i, i < 100 →
      ((create_sample_data g).map Row.sales).getD i 0
        = ((g.normal 100).take (i + 1)).sum) ∧
    (create_sample_data g).map Row.users = g.poisson 100 ∧
    (create_sample_data g).map Row.conversion = g.uniform 100 ∧
    (∀ row ∈ create_sample_data g,
      1/100 ≤ row.conversion ∧ row.conversion < 1/20) ∧
    (∀ g' : SampleStreams, g' = g →
      create_sample_data g' = create_sample_data g) := by
  obtain ⟨hn, hp, hu, hub⟩ := hg
  have hdlen : (date_range day20230101 100).length = 100 := by
    rw [date_range, List.length_map, List.length_range]
  obtain ⟨pd0, ps0, pu0, pc0⟩ := zipRows_proj (date_range day20230101 100)
    (cumsum (g.normal 100)) (g.poisson 100) (g.uniform 100)
    (by rw [cumsum, cumsumAux_length, hn, hdlen])
    (by rw [hp, hdlen]) (by rw [hu, hdlen])
  have pd : (create_sample_data g).map Row.date = date_range day20230101 100 :=
    pd0
  have ps : (create_sample_data g).map Row.sales = cumsum (g.normal 100) := ps0
  have pu : (create_sample_data g).map Row.users = g.poisson 100 := pu0
  have pc : (create_sample_data g).map Row.conversion = g.uniform 100 := pc0
  have hlen : (create_sample_data g).length = 100 := by
    have hl := congrArg List.length pd
    rwa [List.length_map, hdlen] at hl
  refine ⟨hlen, pd, ?_, ?_, ps, ?_, pu, pc, ?_, fun g' he => by rw [he]⟩
  · intro i hi
    rw [pd, date_range, List.getD_eq_getElem _ _ (by simpa using hi),
      List.getElem_map, List.getElem_range]
  · have hr : (List.range 100).Pairwise (· < ·) := List.pairwise_lt_range 100
    have hd : (date_range day20230101 100).Pairwise (· < ·) := by
      rw [date_range]
      exact List.Pairwise.map _ (fun a b hab => by omega) hr
    have hd2 := pd ▸ hd
    rwa [List.pairwise_map] at hd2
  · intro i hi
    rw [ps, cumsum_getD (g.normal 100) i (by rw [hn]; exact hi)]
  · intro row hrow
    have hm : row.conversion ∈ (create_sample_data g).map Row.conversion :=
      List.mem_map_of_mem _ hrow
    rw [pc] at hm
    exact hub 100 _ hm

/-- C10: for every set of builtins that does not bind `reactive` (the
module never imports or defines it), executing the server setup raises
`NameError` at the first decorator, before any output is computed. -/
theorem server_setup_name_error (builtins : List String)
    (hb : "reactive" ∉ builtins) :
    serverSetup builtins
      = Except.error "NameError: name reactive is not defined" := by
  have hcond : ¬("reactive" ∈ serverParams ∨ "reactive" ∈ moduleNames ∨
      "reactive" ∈ builtins) := by
    push_neg
    exact ⟨by decide, by decide, hb⟩
  simp only [serverSetup, lookupName, if_neg hcond]
  rfl

/-- Witness for C10 with the empty builtin table. -/
theorem server_setup_name_error_witness :
    serverSetup [] = Except.error "NameError: name reactive is not defined" :=
  server_setup_name_error [] (by simp)

/-- Witness for C8 at the concrete constant streams `exStreams`. -/
theorem generator_contract_witness :
    (create_sample_data exStreams).length = 100 ∧
    (create_sample_data exStreams).map Row.users = exStreams.poisson 100 :=
  ⟨(generator_contract exStreams (by
      refine ⟨fun n => by simp [exStreams], fun n => by simp [exStreams],
        fun n => by simp [exStreams], fun n x hx => ?_⟩
      have hx' : x ∈ List.replicate n ((1 : ℚ)/50) := by
        simpa [exStreams] using hx
      rw [List.eq_of_mem_replicate hx']
      norm_num)).1,
   (generator_contract exStreams (by
      refine ⟨fun n => by simp [exStreams], fun n => by simp [exStreams],
        fun n => by simp [exStreams], fun n x hx => ?_⟩
      have hx' : x ∈ List.replicate n ((1 : ℚ)/50) := by
        simpa [exStreams] using hx
      rw [List.eq_of_mem_replicate hx']
      norm_num)).2.2.2.2.2.2.1⟩

/-- Witness for C5: the empty view reports count 0 and an undefined
mean; on the 3-row `exDf` the sales column's mean, median (via the
sorted column `[4, 5, 7]`) and sample standard deviation are as the
theorem states. -/
theorem summary_stage_correct_witness :
    (summary_table ([] : Dataset) Metric.users).mean = none ∧
    (summary_table ([] : Dataset) Metric.users).count = 0 ∧
    (summary_table exDf Metric.sales).mean
      = some (round2 ((exDf.map Metric.sales.col).sum / (exDf.length : ℚ))) ∧
    (summary_table exDf Metric.sales).q50
      = some (round2 (interpAt [4, 5, 7] (1/2))) ∧
    (summary_table exDf Metric.sales).std = some (round2R (Real.sqrt
        ((((exDf.map Metric.sales.col).map
            (fun x => (x - (exDf.map Metric.sales.col).sum
              / (exDf.length : ℚ)) ^ 2)).sum
          / ((exDf.length - 1 : ℕ) : ℚ) : ℚ) : ℝ))) :=
  ⟨((summary_stage_correct []).2.1 rfl Metric.users).2.1,
   ((summary_stage_correct []).2.1 rfl Metric.users).1,
   ((summary_stage_correct exDf).2.2.1 (by simp [exDf]) Metric.sales).1,
   (((summary_stage_correct exDf).2.2.1 (by simp [exDf]) Metric.sales).2.2.2
      [4, 5, 7] (by decide) (by decide)).2.1,
   (summary_stage_correct exDf).2.2.2.2 (by decide) Metric.sales⟩

end Dashboard
